import Mathlib

/-!
Shallow embedding of `src/pdf_merger.py` (function `merge_pdfs`).

The repository code is a procedural wrapper around the PyPDF2 library:
it validates its arguments, checks that every input path exists and is a
file, reads each input with `PyPDF2.PdfReader`, appends all pages of each
readable input to a `PyPDF2.PdfWriter` (skipping inputs with zero pages
after printing a warning), optionally creates the missing parent directory
of the output path with `os.makedirs`, and finally writes the accumulated
pages directly to the output path with `open(output_path, "wb")`.

The embedding models:
  - the filesystem as a map from paths to nodes (files carry the page
    lists PyPDF2 would read from them, or a corruption marker on which
    `PdfReader` raises `PdfReadError`);
  - PyPDF2's reader/writer abstractly: a readable PDF file is its ordered
    list of pages, each page its decoded content-stream bytes, and
    `PdfWriter.write` serializes the accumulated page list;
  - the OS write call with an explicit failure point (`writeLimit`): a
    write that fails after `n` pages leaves a truncated file at the
    destination, exactly as `open(path, "wb")` followed by a failing
    write does;
  - observable filesystem activity as an event trace (stat calls on the
    inputs, opens for reading, printed warnings, directory creation,
    opens for writing), so that claims of the form "fails before touching
    any file" are statable.

Python exceptions become the `MergeError` sum type; `merge_pdfs` returns
the final filesystem, the event trace, and either the written page list
or the raised error.  The `try/except` blocks at lines 96-103 of the
source only print and re-raise, so they are semantically transparent.
-/

namespace PdfMerger

/-- A file path, as the Python code handles it: a plain string. -/
abbrev Path := String

/-- One PDF page, identified with its decoded content-stream bytes. -/
abbrev Page := List Nat

/-- What a file on disk holds, as seen through PyPDF2.
`pdf pages` is a well-formed PDF whose page list is `pages`;
`corrupt msg` is a file on which `PyPDF2.PdfReader` raises
`PdfReadError msg` (malformed syntax, bad xref, encryption, ...);
`truncatedPdf pages` is a prefix of the serialization of `pages`,
left behind by an interrupted write — reading it also fails. -/
inductive FileData where
  | pdf (pages : List Page)
  | corrupt (msg : String)
  | truncatedPdf (pages : List Page)
  deriving DecidableEq

/-- A filesystem node: a regular file with contents, or a directory. -/
inductive FsNode where
  | file (data : FileData)
  | dir
  deriving DecidableEq

/-- The filesystem state and the ambient OS behavior.
`nodes` maps a path to its node (`none` = path absent, so
`os.path.exists` is `isSome` and `os.path.isfile` is "is a `file` node").
`makedirsOk d` says whether `os.makedirs d` succeeds.
`writeLimit p` models the write syscall at `p`: `none` means writes
succeed in full, `some n` means the device accepts `n` pages of output
before failing (so `some n` with more than `n` pages to write produces
an `IOError` and a truncated file). -/
structure Fs where
  nodes : Path → Option FsNode
  makedirsOk : Path → Bool
  writeLimit : Path → Option Nat

/-- Store `node` at path `p`, leaving every other path unchanged. -/
def Fs.setNode (fs : Fs) (p : Path) (node : FsNode) : Fs :=
  { fs with nodes := fun q => if q = p then some node else fs.nodes q }

/-- The pages of the PDF file at `p` (empty if `p` is not a readable PDF). -/
def Fs.pagesOf (fs : Fs) (p : Path) : List Page :=
  match fs.nodes p with
  | some (.file (.pdf ps)) => ps
  | _ => []

/-- `p` holds a valid PDF file that `PdfReader` reads successfully. -/
def Fs.validPdf (fs : Fs) (p : Path) : Prop :=
  ∃ ps, fs.nodes p = some (.file (.pdf ps))

/-- A Python value, as far as `merge_pdfs`'s `isinstance` checks can
distinguish one: a string, a list, or a value of some other type. -/
inductive PyValue where
  | str (s : String)
  | list (xs : List PyValue)
  | int (n : Int)
  | bool (b : Bool)
  | none

/-- `isinstance(v, list)`. -/
def PyValue.isList : PyValue → Bool
  | .list _ => true
  | _ => false

/-- `isinstance(v, str)`. -/
def PyValue.isStr : PyValue → Bool
  | .str _ => true
  | _ => false

/-- The string a `str` value holds (junk elsewhere; used only under `isStr`). -/
def PyValue.asStr : PyValue → String
  | .str s => s
  | _ => ""

/-- The elements of a `list` value (empty elsewhere). -/
def PyValue.elems : PyValue → List PyValue
  | .list xs => xs
  | _ => []

/-- Observable filesystem activity of one `merge_pdfs` call, in order:
`os.path.exists` / `os.path.isfile` stat calls on the inputs, opening an
input for reading, the two printed warnings, `os.makedirs`, and opening
the output for writing. -/
inductive Event where
  | checkedExists (p : Path)
  | checkedIsFile (p : Path)
  | openedForRead (p : Path)
  | warnedEmptyInput (p : Path)
  | warnedEmptyOutput
  | createdDir (d : Path)
  | openedForWrite (p : Path)
  deriving DecidableEq

/-- A stat-only event: it reads metadata, opens nothing, writes nothing. -/
def Event.isStat : Event → Bool
  | .checkedExists _ => true
  | .checkedIsFile _ => true
  | _ => false

/-- An event of the reading loop: an input open or a zero-page warning. -/
def Event.isRead : Event → Bool
  | .openedForRead _ => true
  | .warnedEmptyInput _ => true
  | _ => false

/-- The exceptions `merge_pdfs` documents and raises. -/
inductive MergeError where
  | valueError (msg : String)
  | fileNotFoundError (msg : String)
  | pdfReadError (msg : String)
  | ioError (msg : String)
  | unexpectedError (msg : String)
  deriving DecidableEq

/-- The outcome of constructing `PyPDF2.PdfReader` on an opened file. -/
inductive ReadOutcome where
  | pages (ps : List Page)
  | readError (msg : String)
  | otherError (msg : String)
  deriving DecidableEq

/-- `os.path.basename` (posix): the part of `p` after the last slash. -/
def basename (p : Path) : String :=
  String.mk ((p.toList.reverse.takeWhile (fun c => c ≠ '/')).reverse)

/-- `os.path.dirname` (posix): everything up to the last slash, with
trailing slashes stripped unless the result is all slashes; empty when
`p` has no slash. -/
def dirname (p : Path) : String :=
  let head := (p.toList.reverse.dropWhile (fun c => c ≠ '/')).reverse
  if head.isEmpty then ""
  else if head.all (fun c => c = '/') then String.mk head
  else String.mk ((head.reverse.dropWhile (fun c => c = '/')).reverse)

/-- `PyPDF2.PdfReader(open(p, "rb"))`: yields the page list of a valid
PDF, raises `PdfReadError` on a corrupt or truncated file, and some other
exception when `p` is not an openable regular file (unreachable after the
existence checks, since the model is single-threaded). -/
def pdfReader (fs : Fs) (p : Path) : ReadOutcome :=
  match fs.nodes p with
  | some (.file (.pdf ps)) => .pages ps
  | some (.file (.corrupt m)) => .readError m
  | some (.file (.truncatedPdf _)) => .readError "EOF marker not found"
  | some .dir => .otherError "IsADirectoryError"
  | Option.none => .otherError "FileNotFoundError"

/-- Lines 30-34: for each input path in order, `os.path.exists` then
`os.path.isfile`; the first failing path raises `FileNotFoundError` with
a message naming it. Returns the stat events and the error, if any. -/
def checkInputPaths (fs : Fs) : List Path → List Event × Option MergeError
  | [] => ([], Option.none)
  | p :: rest =>
    match fs.nodes p with
    | Option.none =>
        ([.checkedExists p],
         some (.fileNotFoundError ("Input file not found: " ++ p)))
    | some (.file _) =>
        let r := checkInputPaths fs rest
        (.checkedExists p :: .checkedIsFile p :: r.1, r.2)
    | some .dir =>
        ([.checkedExists p, .checkedIsFile p],
         some (.fileNotFoundError ("Input path is not a file: " ++ p)))

/-- The stat events of a fully successful existence check. -/
def checkEvents : List Path → List Event
  | [] => []
  | p :: rest => .checkedExists p :: .checkedIsFile p :: checkEvents rest

/-- Lines 47-70: the reading loop. Each input is opened and parsed; a
zero-page input is skipped after a printed warning; pages of the others
are appended to the writer in order; a `PdfReadError` is re-raised with
the offending file's basename in the message, and any other exception is
re-raised as a generic one, both aborting the loop. -/
def addInputPages (fs : Fs) : List Path → List Page → List Event × Except MergeError (List Page)
  | [], writer => ([], .ok writer)
  | p :: rest, writer =>
    match pdfReader fs p with
    | .pages [] =>
        let r := addInputPages fs rest writer
        (.openedForRead p :: .warnedEmptyInput p :: r.1, r.2)
    | .pages ps =>
        let r := addInputPages fs rest (writer ++ ps)
        (.openedForRead p :: r.1, r.2)
    | .readError m =>
        ([.openedForRead p],
         .error (.pdfReadError ("Error reading PDF file '" ++ basename p ++ "': " ++ m)))
    | .otherError m =>
        ([.openedForRead p],
         .error (.unexpectedError ("An unexpected error occurred while processing '" ++ basename p ++ "': " ++ m)))

/-- The read-loop events when every input is a readable PDF. -/
def readEvents (fs : Fs) : List Path → List Event
  | [] => []
  | p :: rest =>
    .openedForRead p ::
      ((if fs.pagesOf p = [] then [Event.warnedEmptyInput p] else []) ++ readEvents fs rest)

/-- Lines 91-92: `open(output_path, "wb")` followed by
`pdf_writer.write(...)`. The destination is written directly (no
temporary file, no rename): a full write stores the serialized pages; a
write that the device cuts off after `n` pages raises `IOError` and
leaves a truncated file holding the first `n` pages' bytes. -/
def writeOutput (fs : Fs) (p : Path) (pages : List Page) :
    Fs × List Event × Except MergeError (List Page) :=
  match fs.writeLimit p with
  | Option.none =>
      (fs.setNode p (.file (.pdf pages)), [.openedForWrite p], .ok pages)
  | some n =>
      if pages.length ≤ n then
        (fs.setNode p (.file (.pdf pages)), [.openedForWrite p], .ok pages)
      else
        (fs.setNode p (.file (.truncatedPdf (pages.take n))),
         [.openedForWrite p],
         .error (.ioError ("Error writing output file " ++ p)))

/-- Lines 30-92 for an already validated, nonempty list of string paths:
existence checks, reading loop, the empty-output warning (print only,
lines 74-78), parent-directory creation (lines 82-88), and the final
write (lines 91-92). -/
def mergeChecked (fs : Fs) (paths : List Path) (output_path : Path) :
    Fs × List Event × Except MergeError (List Page) :=
  let c := checkInputPaths fs paths
  match c.2 with
  | some e => (fs, c.1, .error e)
  | Option.none =>
    let r := addInputPages fs paths []
    match r.2 with
    | .error e => (fs, c.1 ++ r.1, .error e)
    | .ok pages =>
      let warnEvs := if pages = [] then [Event.warnedEmptyOutput] else []
      let d := dirname output_path
      if d ≠ "" ∧ fs.nodes d = Option.none then
        if fs.makedirsOk d then
          let w := writeOutput (fs.setNode d .dir) output_path pages
          (w.1, c.1 ++ r.1 ++ warnEvs ++ [Event.createdDir d] ++ w.2.1, w.2.2)
        else
          (fs, c.1 ++ r.1 ++ warnEvs,
           .error (.ioError ("Error creating output directory " ++ d)))
      else
        let w := writeOutput fs output_path pages
        (w.1, c.1 ++ r.1 ++ warnEvs ++ w.2.1, w.2.2)

/-- `merge_pdfs(input_paths, output_path)`, lines 5-103 of
`src/pdf_merger.py`: argument validation (lines 23-27), then the
validated merge. Returns the final filesystem, the event trace, and
either the page list written to `output_path` or the raised exception. -/
def merge_pdfs (input_paths : PyValue) (output_path : Path) (fs : Fs) :
    Fs × List Event × Except MergeError (List Page) :=
  match input_paths with
  | .list (v :: vs) =>
      if (v :: vs).all PyValue.isStr then
        mergeChecked fs ((v :: vs).map PyValue.asStr) output_path
      else
        (fs, [], .error (.valueError "All elements in input_paths must be strings (file paths)."))
  | _ =>
      (fs, [], .error (.valueError "input_paths must be a non-empty list of file paths."))

/-- The full event trace of a merge in which every input was readable and
the write succeeded without creating a directory. -/
def successTrace (fs : Fs) (paths : List Path) (out : Path) : List Event :=
  checkEvents paths ++ readEvents fs paths ++
    (if paths.flatMap fs.pagesOf = [] then [Event.warnedEmptyOutput] else []) ++
    [Event.openedForWrite out]

end PdfMerger

/-!
Concrete filesystems used by the witness and counterexample theorems.
Each models a small directory of test files like the dummy files the
source's `__main__` block asks for.
-/

namespace PdfMerger

/-- Two readable PDFs: `a.pdf` with two pages, `b.pdf` with one. -/
def fsTwoW : Fs :=
  { nodes := fun p =>
      if p = "a.pdf" then some (.file (.pdf [[1], [2]]))
      else if p = "b.pdf" then some (.file (.pdf [[3]]))
      else Option.none,
    makedirsOk := fun _ => false,
    writeLimit := fun _ => Option.none }

/-- A single readable two-page PDF at `a.pdf`. -/
def fsOneW : Fs :=
  { nodes := fun p => if p = "a.pdf" then some (.file (.pdf [[7], [8, 9]])) else Option.none,
    makedirsOk := fun _ => false,
    writeLimit := fun _ => Option.none }

/-- A single readable PDF with zero pages at `empty.pdf`. -/
def fsEmptyIn : Fs :=
  { nodes := fun p => if p = "empty.pdf" then some (.file (.pdf [])) else Option.none,
    makedirsOk := fun _ => false,
    writeLimit := fun _ => Option.none }

/-- A readable two-page input, a pre-existing one-page file at the
destination `out.pdf`, and a device that accepts only one page of output
at `out.pdf` before failing. -/
def fsTruncW : Fs :=
  { nodes := fun p =>
      if p = "a.pdf" then some (.file (.pdf [[1], [2]]))
      else if p = "out.pdf" then some (.file (.pdf [[9]]))
      else Option.none,
    makedirsOk := fun _ => false,
    writeLimit := fun p => if p = "out.pdf" then some 1 else Option.none }

/-- A readable PDF, a corrupt PDF, and another readable PDF. -/
def fsBadW : Fs :=
  { nodes := fun p =>
      if p = "a.pdf" then some (.file (.pdf [[1]]))
      else if p = "bad.pdf" then some (.file (.corrupt "Could not read malformed PDF file"))
      else if p = "c.pdf" then some (.file (.pdf [[5]]))
      else Option.none,
    makedirsOk := fun _ => false,
    writeLimit := fun _ => Option.none }

/-- One readable PDF; every other path, `gone.pdf` included, is absent. -/
def fsMissW : Fs :=
  { nodes := fun p => if p = "a.pdf" then some (.file (.pdf [[1]])) else Option.none,
    makedirsOk := fun _ => false,
    writeLimit := fun _ => Option.none }

/-- A readable one-page PDF, a zero-page PDF, and a two-page PDF. -/
def fsSkipW : Fs :=
  { nodes := fun p =>
      if p = "a.pdf" then some (.file (.pdf [[1]]))
      else if p = "zero.pdf" then some (.file (.pdf []))
      else if p = "c.pdf" then some (.file (.pdf [[5], [6]]))
      else Option.none,
    makedirsOk := fun _ => false,
    writeLimit := fun _ => Option.none }

/-- One readable PDF, used for the argument-validation witness. -/
def fsArgW : Fs :=
  { nodes := fun p => if p = "a.pdf" then some (.file (.pdf [[1]])) else Option.none,
    makedirsOk := fun _ => false,
    writeLimit := fun _ => Option.none }

/-- One readable PDF; `os.makedirs` succeeds for `newdir`. -/
def fsMkW : Fs :=
  { nodes := fun p => if p = "a.pdf" then some (.file (.pdf [[1]])) else Option.none,
    makedirsOk := fun d => d == "newdir",
    writeLimit := fun _ => Option.none }

/-- One readable PDF; `os.makedirs` fails everywhere. -/
def fsNoMkW : Fs :=
  { nodes := fun p => if p = "a.pdf" then some (.file (.pdf [[1]])) else Option.none,
    makedirsOk := fun _ => false,
    writeLimit := fun _ => Option.none }

end PdfMerger

/-!
General lemmas about the embedding: how `merge_pdfs` reduces on validated
string lists, and how the check, read and write phases behave on readable,
corrupt and missing inputs.
-/

namespace PdfMerger

/-- A list of `str` values passes the `all isinstance(p, str)` check. -/
theorem all_isStr_map (l : List Path) : ((l.map PyValue.str).all PyValue.isStr) = true := by
  induction l with
  | nil => rfl
  | cons q qs ih => simp [List.all_cons, PyValue.isStr, ih]

/-- Converting a list of `str` values back to strings is the identity. -/
theorem map_asStr_map (l : List Path) : (l.map PyValue.str).map PyValue.asStr = l := by
  induction l with
  | nil => rfl
  | cons q qs ih => simp [PyValue.asStr, ih]

/-- On a nonempty list of string paths, `merge_pdfs` passes its argument
validation and runs the validated merge. -/
theorem merge_pdfs_strs (fs : Fs) (q : Path) (qs : List Path) (out : Path) :
    merge_pdfs (.list ((q :: qs).map PyValue.str)) out fs = mergeChecked fs (q :: qs) out := by
  have hall : ((q :: qs).map PyValue.str).all PyValue.isStr = true := all_isStr_map (q :: qs)
  have hmap : ((q :: qs).map PyValue.str).map PyValue.asStr = q :: qs := map_asStr_map (q :: qs)
  simp only [List.map_cons] at hall hmap
  simp only [merge_pdfs, hall, if_true]
  simp only [List.map_cons] at hmap ⊢
  rw [show ((PyValue.str q).asStr :: List.map PyValue.asStr (List.map PyValue.str qs)) = q :: qs from hmap]
  simp [hall]

/-- `merge_pdfs_strs` for a list only known to be nonempty. -/
theorem merge_pdfs_strs_ne (fs : Fs) (paths : List Path) (out : Path) (h : paths ≠ []) :
    merge_pdfs (.list (paths.map PyValue.str)) out fs = mergeChecked fs paths out := by
  cases paths with
  | nil => exact absurd rfl h
  | cons q qs => exact merge_pdfs_strs fs q qs out

/-- The existence checks succeed when every path is a regular file. -/
theorem checkInputPaths_ok (fs : Fs) (paths : List Path)
    (h : ∀ p ∈ paths, ∃ d, fs.nodes p = some (.file d)) :
    checkInputPaths fs paths = (checkEvents paths, Option.none) := by
  induction paths with
  | nil => rfl
  | cons p rest ih =>
      obtain ⟨d, hd⟩ := h p (List.mem_cons_self p rest)
      simp [checkInputPaths, hd, checkEvents, ih fun q hq => h q (List.mem_cons_of_mem p hq)]

/-- A readable PDF is in particular a regular file. -/
theorem validPdf_file {fs : Fs} {p : Path} (h : fs.validPdf p) :
    ∃ d, fs.nodes p = some (.file d) := by
  obtain ⟨ps, hp⟩ := h
  exact ⟨.pdf ps, hp⟩

/-- `PdfReader` on a readable PDF yields exactly its pages. -/
theorem pdfReader_valid {fs : Fs} {p : Path} (h : fs.validPdf p) :
    pdfReader fs p = .pages (fs.pagesOf p) := by
  obtain ⟨ps, hp⟩ := h
  simp [pdfReader, Fs.pagesOf, hp]

/-- The reading loop over readable inputs appends all their pages to the
accumulator in input order (zero-page inputs contributing nothing). -/
theorem addInputPages_ok (fs : Fs) (paths : List Path)
    (h : ∀ p ∈ paths, fs.validPdf p) (acc : List Page) :
    addInputPages fs paths acc = (readEvents fs paths, .ok (acc ++ paths.flatMap fs.pagesOf)) := by
  induction paths generalizing acc with
  | nil => simp [addInputPages, readEvents]
  | cons p rest ih =>
      have hp := pdfReader_valid (h p (List.mem_cons_self p rest))
      have hrest := fun q hq => h q (List.mem_cons_of_mem p hq)
      cases hps : fs.pagesOf p with
      | nil =>
          rw [hps] at hp
          simp [addInputPages, hp, readEvents, hps, ih hrest]
      | cons x xs =>
          rw [hps] at hp
          simp only [addInputPages, hp]
          simp [readEvents, hps, ih hrest, List.append_assoc]

/-- A full write stores the writer's pages at the destination. -/
theorem writeOutput_ok (fs : Fs) (p : Path) (pages : List Page)
    (hw : fs.writeLimit p = Option.none) :
    writeOutput fs p pages = (fs.setNode p (.file (.pdf pages)), [.openedForWrite p], .ok pages) := by
  simp [writeOutput, hw]

/-- A merge over readable inputs whose output path needs no directory
creation writes the concatenation of all input pages and succeeds. -/
theorem mergeChecked_success (fs : Fs) (paths : List Path) (out : Path)
    (hv : ∀ p ∈ paths, fs.validPdf p)
    (hw : fs.writeLimit out = Option.none) (hd : dirname out = "") :
    mergeChecked fs paths out
      = (fs.setNode out (.file (.pdf (paths.flatMap fs.pagesOf))),
         successTrace fs paths out,
         .ok (paths.flatMap fs.pagesOf)) := by
  have hc := checkInputPaths_ok fs paths (fun p hp => validPdf_file (hv p hp))
  have ha := addInputPages_ok fs paths hv []
  simp only [mergeChecked, hc, ha, List.nil_append, hd, writeOutput_ok fs out _ hw]
  simp [successTrace]

/-- A readable PDF at `p` makes `validPdf` hold. -/
theorem validPdf_of_nodes {fs : Fs} {p : Path} {ps : List Page}
    (h : fs.nodes p = some (.file (.pdf ps))) : fs.validPdf p := ⟨ps, h⟩

/-- `pagesOf` reads off the page list of a readable PDF. -/
theorem pagesOf_eq {fs : Fs} {p : Path} {ps : List Page}
    (h : fs.nodes p = some (.file (.pdf ps))) : fs.pagesOf p = ps := by
  simp [Fs.pagesOf, h]

/-- If every input has zero pages, the writer accumulates nothing. -/
theorem flatMap_pagesOf_nil (fs : Fs) (paths : List Path)
    (h : ∀ p ∈ paths, fs.pagesOf p = []) : paths.flatMap fs.pagesOf = [] := by
  induction paths with
  | nil => rfl
  | cons p rest ih =>
      simp [List.flatMap_cons, h p (List.mem_cons_self p rest),
        ih fun q hq => h q (List.mem_cons_of_mem p hq)]

/-- Every event of the existence-check phase is a stat call. -/
theorem mem_checkEvents_isStat {e : Event} {paths : List Path}
    (h : e ∈ checkEvents paths) : e.isStat = true := by
  induction paths with
  | nil => cases h
  | cons p rest ih =>
      rcases List.mem_cons.mp h with h1 | h1
      · subst h1; rfl
      · rcases List.mem_cons.mp h1 with h2 | h2
        · subst h2; rfl
        · exact ih h2

/-- Every event of the reading loop is an input open or a warning. -/
theorem mem_readEvents_isRead {fs : Fs} {e : Event} {paths : List Path}
    (h : e ∈ readEvents fs paths) : e.isRead = true := by
  induction paths with
  | nil => cases h
  | cons p rest ih =>
      rcases List.mem_cons.mp h with h1 | h1
      · subst h1; rfl
      · rcases List.mem_append.mp h1 with h2 | h2
        · by_cases hc : fs.pagesOf p = []
          · rw [if_pos hc] at h2
            rw [List.mem_singleton.mp h2]; rfl
          · rw [if_neg hc] at h2; cases h2
        · exact ih h2

/-- A write the device cuts off after `n` pages raises `IOError` and
leaves the first `n` pages as a truncated file at the destination. -/
theorem writeOutput_truncates (fs : Fs) (p : Path) (pages : List Page) (n : Nat)
    (hw : fs.writeLimit p = some n) (hn : n < pages.length) :
    writeOutput fs p pages
      = (fs.setNode p (.file (.truncatedPdf (pages.take n))),
         [.openedForWrite p],
         .error (.ioError ("Error writing output file " ++ p))) := by
  simp [writeOutput, hw, Nat.not_le.mpr hn]

/-- The reading loop aborts at the first corrupt input, wrapping the
`PdfReadError` with the offending file's basename. -/
theorem addInputPages_readError (fs : Fs) (pre : List Path) (p : Path) (rest : List Path)
    (m : String) (hpre : ∀ q ∈ pre, fs.validPdf q)
    (hp : pdfReader fs p = .readError m) (acc : List Page) :
    addInputPages fs (pre ++ p :: rest) acc
      = (readEvents fs pre ++ [.openedForRead p],
         .error (.pdfReadError ("Error reading PDF file '" ++ basename p ++ "': " ++ m))) := by
  induction pre generalizing acc with
  | nil => simp [addInputPages, hp, readEvents]
  | cons x xs ih =>
      have hx := pdfReader_valid (hpre x (List.mem_cons_self x xs))
      have hxs := fun q hq => hpre q (List.mem_cons_of_mem x hq)
      cases hpx : fs.pagesOf x with
      | nil =>
          rw [hpx] at hx
          simp [addInputPages, hx, readEvents, hpx, ih hxs]
      | cons y ys =>
          rw [hpx] at hx
          simp only [List.cons_append, addInputPages, hx]
          simp [readEvents, hpx, ih hxs]

/-- The existence checks stop at the first missing path, having statted
only the paths before it, and name the missing path in the error. -/
theorem checkInputPaths_missing (fs : Fs) (pre : List Path) (p : Path) (rest : List Path)
    (hpre : ∀ q ∈ pre, ∃ d, fs.nodes q = some (.file d))
    (hp : fs.nodes p = Option.none) :
    checkInputPaths fs (pre ++ p :: rest)
      = (checkEvents pre ++ [.checkedExists p],
         some (.fileNotFoundError ("Input file not found: " ++ p))) := by
  induction pre with
  | nil => simp [checkInputPaths, hp, checkEvents]
  | cons x xs ih =>
      obtain ⟨d, hd⟩ := hpre x (List.mem_cons_self x xs)
      simp [checkInputPaths, hd, checkEvents,
        ih fun q hq => hpre q (List.mem_cons_of_mem x hq)]

/-- A zero-page input anywhere in the list gets its skip warning. -/
theorem warned_mem_readEvents (fs : Fs) (pre : List Path) (p : Path) (rest : List Path)
    (hp : fs.pagesOf p = []) :
    Event.warnedEmptyInput p ∈ readEvents fs (pre ++ p :: rest) := by
  induction pre with
  | nil => simp [readEvents, hp]
  | cons x xs ih =>
      rw [List.cons_append]
      simp only [readEvents]
      exact List.mem_cons_of_mem _ (List.mem_append_right _ ih)

end PdfMerger

/-!
The claim theorems. Each is stated against `merge_pdfs` and the event
trace; witnesses instantiate them on the concrete filesystems above.
-/

namespace PdfMerger

/-- C1: for every pair of valid PDF inputs A and B, merging the
two-element input list [A, B] produces an output document whose page
count equals pageCount(A) + pageCount(B), with all pages of A first (in
A's document order) followed by all pages of B (in B's document order):
the output written at `out` is exactly `pA ++ pB`. -/
theorem merge_two_inputs_concatenates_pages (fs : Fs) (a b out : Path)
    (pA pB : List Page)
    (ha : fs.nodes a = some (.file (.pdf pA)))
    (hb : fs.nodes b = some (.file (.pdf pB)))
    (hw : fs.writeLimit out = Option.none) (hd : dirname out = "") :
    merge_pdfs (.list [.str a, .str b]) out fs
      = (fs.setNode out (.file (.pdf (pA ++ pB))),
         successTrace fs [a, b] out,
         .ok (pA ++ pB))
    ∧ (pA ++ pB).length = pA.length + pB.length := by
  have hv : ∀ p ∈ [a, b], fs.validPdf p := by
    intro p hp
    rcases List.mem_cons.mp hp with h | hp
    · exact h ▸ validPdf_of_nodes ha
    · rcases List.mem_cons.mp hp with h | hp
      · exact h ▸ validPdf_of_nodes hb
      · cases hp
  have hflat : ([a, b].flatMap fs.pagesOf) = pA ++ pB := by
    simp [List.flatMap, pagesOf_eq ha, pagesOf_eq hb]
  refine ⟨?_, List.length_append pA pB⟩
  rw [show (PyValue.list [.str a, .str b]) = .list (([a, b]).map PyValue.str) by simp]
  rw [merge_pdfs_strs fs a [b] out]
  rw [mergeChecked_success fs [a, b] out hv hw hd, hflat]

/-- C1 witness: merging the concrete two-page `a.pdf` with the one-page
`b.pdf` writes the three pages in order. -/
theorem merge_two_inputs_concatenates_pages_witness :
    (merge_pdfs (.list [.str "a.pdf", .str "b.pdf"]) "out.pdf" fsTwoW
      = (fsTwoW.setNode "out.pdf" (.file (.pdf ([[1], [2]] ++ [[3]]))),
         successTrace fsTwoW ["a.pdf", "b.pdf"] "out.pdf",
         .ok ([[1], [2]] ++ [[3]])))
    ∧ (([[1], [2]] : List Page) ++ [[3]]).length
        = ([[1], [2]] : List Page).length + ([[3]] : List Page).length :=
  merge_two_inputs_concatenates_pages fsTwoW "a.pdf" "b.pdf" "out.pdf"
    [[1], [2]] [[3]] rfl rfl rfl rfl

/-- C2: for every valid PDF input A, merging the single-element input
list [A] (pages are always taken in full document order; the code has no
page selection) produces an output with the same page count as A and
identical content-stream bytes for every page: the output written at
`out` is exactly A's page list, and reading the output back yields the
same pages as reading A. -/
theorem merge_single_input_roundtrip (fs : Fs) (a out : Path) (pA : List Page)
    (ha : fs.nodes a = some (.file (.pdf pA)))
    (hw : fs.writeLimit out = Option.none) (hd : dirname out = "") :
    merge_pdfs (.list [.str a]) out fs
      = (fs.setNode out (.file (.pdf pA)), successTrace fs [a] out, .ok pA)
    ∧ (fs.setNode out (.file (.pdf pA))).pagesOf out = fs.pagesOf a := by
  have hv : ∀ p ∈ [a], fs.validPdf p := by
    intro p hp
    rcases List.mem_cons.mp hp with h | hp
    · exact h ▸ validPdf_of_nodes ha
    · cases hp
  have hflat : ([a].flatMap fs.pagesOf) = pA := by
    simp [List.flatMap, pagesOf_eq ha]
  constructor
  · rw [show (PyValue.list [.str a]) = .list (([a]).map PyValue.str) by simp]
    rw [merge_pdfs_strs fs a [] out]
    rw [mergeChecked_success fs [a] out hv hw hd, hflat]
  · rw [pagesOf_eq ha]
    simp [Fs.setNode, Fs.pagesOf]

/-- C2 witness: merging the concrete two-page `a.pdf` alone reproduces
its pages at the output path. -/
theorem merge_single_input_roundtrip_witness :
    (merge_pdfs (.list [.str "a.pdf"]) "out.pdf" fsOneW
      = (fsOneW.setNode "out.pdf" (.file (.pdf [[7], [8, 9]])),
         successTrace fsOneW ["a.pdf"] "out.pdf", .ok [[7], [8, 9]]))
    ∧ (fsOneW.setNode "out.pdf" (.file (.pdf [[7], [8, 9]]))).pagesOf "out.pdf"
        = fsOneW.pagesOf "a.pdf" :=
  merge_single_input_roundtrip fsOneW "a.pdf" "out.pdf" [[7], [8, 9]] rfl rfl rfl

/-- C3 counterexample: with a single zero-page input, `merge_pdfs`
succeeds and writes an empty (zero-page) output document; it raises no
EmptyOutput (or any other) error, and the code offers no configuration
to change this — lines 74-78 only print and the `raise` is commented
out, refuting the claim that finalization fails with EmptyOutput. -/
theorem empty_inputs_silently_write_empty_output :
    (merge_pdfs (.list [.str "empty.pdf"]) "out.pdf" fsEmptyIn).2.2 = .ok []
    ∧ (merge_pdfs (.list [.str "empty.pdf"]) "out.pdf" fsEmptyIn).1.nodes "out.pdf"
        = some (.file (.pdf [])) := ⟨rfl, rfl⟩

/-- C3 amended: if zero pages were appended over the whole merge, the
code prints a warning (`warnedEmptyOutput` in the trace) and then
silently writes an empty but structurally valid output document,
succeeding; no EmptyOutput error is raised and no caller configuration
exists. -/
theorem zero_pages_warn_and_write_empty (fs : Fs) (q : Path) (qs : List Path) (out : Path)
    (hv : ∀ p ∈ q :: qs, fs.nodes p = some (.file (.pdf [])))
    (hw : fs.writeLimit out = Option.none) (hd : dirname out = "") :
    merge_pdfs (.list ((q :: qs).map PyValue.str)) out fs
      = (fs.setNode out (.file (.pdf [])), successTrace fs (q :: qs) out, .ok [])
    ∧ Event.warnedEmptyOutput ∈ successTrace fs (q :: qs) out := by
  have hv' : ∀ p ∈ q :: qs, fs.validPdf p := fun p hp => ⟨[], hv p hp⟩
  have hnil : ((q :: qs).flatMap fs.pagesOf) = [] :=
    flatMap_pagesOf_nil fs (q :: qs) fun p hp => pagesOf_eq (hv p hp)
  constructor
  · rw [merge_pdfs_strs fs q qs out, mergeChecked_success fs (q :: qs) out hv' hw hd, hnil]
  · simp [successTrace, hnil]

/-- C3 amended witness: the concrete zero-page `empty.pdf` produces a
successful empty output after the warning. -/
theorem zero_pages_warn_and_write_empty_witness :
    (merge_pdfs (.list (["empty.pdf"].map PyValue.str)) "out.pdf" fsEmptyIn
      = (fsEmptyIn.setNode "out.pdf" (.file (.pdf [])),
         successTrace fsEmptyIn ["empty.pdf"] "out.pdf", .ok []))
    ∧ Event.warnedEmptyOutput ∈ successTrace fsEmptyIn ["empty.pdf"] "out.pdf" :=
  zero_pages_warn_and_write_empty fsEmptyIn "empty.pdf" [] "out.pdf"
    (by intro p hp; simp only [List.mem_singleton] at hp; subst hp; rfl)
    rfl rfl

/-- C4 counterexample: on a device that fails after one page, merging a
two-page input raises IOError and leaves a truncated file at the
destination, which previously held a readable one-page PDF — refuting
"output bytes are written to a temporary location and then atomically
moved into place" and "a write failure never leaves a truncated output
file". -/
theorem write_failure_truncates_destination :
    (merge_pdfs (.list [.str "a.pdf"]) "out.pdf" fsTruncW).2.2
      = .error (.ioError "Error writing output file out.pdf")
    ∧ (merge_pdfs (.list [.str "a.pdf"]) "out.pdf" fsTruncW).1.nodes "out.pdf"
      = some (.file (.truncatedPdf [[1]]))
    ∧ fsTruncW.nodes "out.pdf" = some (.file (.pdf [[9]])) := ⟨rfl, rfl, rfl⟩

/-- C4 amended: an IOError from the write is surfaced only after all
reads succeed, but the output is written directly at the destination
path (the only `openedForWrite` event in the trace is at `out` — no
temporary location, no atomic move), so a write the device cuts off
after `n` pages leaves a truncated file at the destination. -/
theorem direct_write_truncation_on_failure (fs : Fs) (q : Path) (qs : List Path)
    (out : Path) (n : Nat)
    (hv : ∀ p ∈ q :: qs, fs.validPdf p)
    (hw : fs.writeLimit out = some n)
    (hn : n < ((q :: qs).flatMap fs.pagesOf).length)
    (hd : dirname out = "") :
    merge_pdfs (.list ((q :: qs).map PyValue.str)) out fs
      = (fs.setNode out (.file (.truncatedPdf (((q :: qs).flatMap fs.pagesOf).take n))),
         checkEvents (q :: qs) ++ readEvents fs (q :: qs) ++ [.openedForWrite out],
         .error (.ioError ("Error writing output file " ++ out)))
    ∧ (∀ p', Event.openedForWrite p'
          ∈ checkEvents (q :: qs) ++ readEvents fs (q :: qs) ++ [Event.openedForWrite out]
          → p' = out) := by
  have hc := checkInputPaths_ok fs (q :: qs) (fun p hp => validPdf_file (hv p hp))
  have ha := addInputPages_ok fs (q :: qs) hv []
  have hne : ((q :: qs).flatMap fs.pagesOf) ≠ [] := by
    intro h0
    rw [h0] at hn
    exact Nat.not_lt_zero n hn
  constructor
  · rw [merge_pdfs_strs fs q qs out]
    simp only [mergeChecked, hc, ha, List.nil_append, hd,
      writeOutput_truncates fs out _ n hw hn]
    rw [if_neg hne]
    simp
  · intro p' hp'
    rcases List.mem_append.mp hp' with h1 | h1
    · rcases List.mem_append.mp h1 with h2 | h2
      · exact absurd (mem_checkEvents_isStat h2) (by simp [Event.isStat])
      · exact absurd (mem_readEvents_isRead h2) (by simp [Event.isRead])
    · simpa using List.mem_singleton.mp h1

/-- C4 amended witness: the concrete failing device truncates `out.pdf`
to the first page of the two-page input. -/
theorem direct_write_truncation_on_failure_witness :
    (merge_pdfs (.list (["a.pdf"].map PyValue.str)) "out.pdf" fsTruncW
      = (fsTruncW.setNode "out.pdf"
           (.file (.truncatedPdf ((["a.pdf"].flatMap fsTruncW.pagesOf).take 1))),
         checkEvents ["a.pdf"] ++ readEvents fsTruncW ["a.pdf"] ++ [.openedForWrite "out.pdf"],
         .error (.ioError ("Error writing output file " ++ "out.pdf"))))
    ∧ (∀ p', Event.openedForWrite p'
          ∈ checkEvents ["a.pdf"] ++ readEvents fsTruncW ["a.pdf"]
              ++ [Event.openedForWrite "out.pdf"]
          → p' = "out.pdf") :=
  direct_write_truncation_on_failure fsTruncW "a.pdf" [] "out.pdf" 1
    (by intro p hp; simp only [List.mem_singleton] at hp; subst hp; exact ⟨[[1], [2]], rfl⟩)
    rfl (by decide) rfl

/-- C5: if reading any input fails with a PdfReadError (malformed or
encrypted PDF), the merge aborts with an error naming the offending
input's basename, the filesystem is returned unchanged (no partial-merge
output is ever written), and the trace shows no directory creation and
no output open. -/
theorem read_error_aborts_merge_without_output (fs : Fs) (pre : List Path) (p : Path)
    (rest : List Path) (out : Path) (m : String)
    (hpre : ∀ q ∈ pre, fs.validPdf q)
    (hp : fs.nodes p = some (.file (.corrupt m)))
    (hrest : ∀ q ∈ rest, ∃ d, fs.nodes q = some (.file d)) :
    merge_pdfs (.list ((pre ++ p :: rest).map PyValue.str)) out fs
      = (fs, checkEvents (pre ++ p :: rest) ++ (readEvents fs pre ++ [.openedForRead p]),
         .error (.pdfReadError ("Error reading PDF file '" ++ basename p ++ "': " ++ m))) := by
  have hall : ∀ q ∈ pre ++ p :: rest, ∃ d, fs.nodes q = some (.file d) := by
    intro q hq
    rcases List.mem_append.mp hq with h1 | h1
    · exact validPdf_file (hpre q h1)
    · rcases List.mem_cons.mp h1 with h2 | h2
      · exact h2 ▸ ⟨.corrupt m, hp⟩
      · exact hrest q h2
  have hc := checkInputPaths_ok fs (pre ++ p :: rest) hall
  have hr : pdfReader fs p = .readError m := by simp [pdfReader, hp]
  have ha := addInputPages_readError fs pre p rest m hpre hr []
  rw [merge_pdfs_strs_ne fs (pre ++ p :: rest) out (by simp)]
  simp [mergeChecked, hc, ha]

/-- C5 witness: a corrupt `bad.pdf` between two readable inputs aborts
the merge with the wrapped PdfReadError and leaves the filesystem as it
was. -/
theorem read_error_aborts_merge_without_output_witness :
    merge_pdfs (.list ((["a.pdf"] ++ "bad.pdf" :: ["c.pdf"]).map PyValue.str)) "out.pdf" fsBadW
      = (fsBadW,
         checkEvents (["a.pdf"] ++ "bad.pdf" :: ["c.pdf"])
           ++ (readEvents fsBadW ["a.pdf"] ++ [.openedForRead "bad.pdf"]),
         .error (.pdfReadError ("Error reading PDF file '" ++ basename "bad.pdf"
                    ++ "': " ++ "Could not read malformed PDF file"))) :=
  read_error_aborts_merge_without_output fsBadW ["a.pdf"] "bad.pdf" ["c.pdf"] "out.pdf"
    "Could not read malformed PDF file"
    (by intro q hq; simp only [List.mem_singleton] at hq; subst hq; exact ⟨[[1]], rfl⟩)
    rfl
    (by intro q hq; simp only [List.mem_singleton] at hq; subst hq; exact ⟨.pdf [[5]], rfl⟩)

/-- C6: merging an empty input list fails with the ValueError of line 24
before touching any file: the event trace is empty and the filesystem is
returned unchanged. -/
theorem empty_input_list_rejected_untouched (out : Path) (fs : Fs) :
    merge_pdfs (.list []) out fs
      = (fs, [], .error (.valueError "input_paths must be a non-empty list of file paths.")) := rfl

/-- C7: if a path in the input list does not exist, the merge fails with
a FileNotFoundError naming the missing path; the failure happens before
any parsing begins (every event in the trace is a stat call — no input
was opened) and the filesystem is unchanged (no output file created). -/
theorem missing_input_path_fails_before_parsing (fs : Fs) (pre : List Path) (p : Path)
    (rest : List Path) (out : Path)
    (hpre : ∀ q ∈ pre, ∃ d, fs.nodes q = some (.file d))
    (hp : fs.nodes p = Option.none) :
    merge_pdfs (.list ((pre ++ p :: rest).map PyValue.str)) out fs
      = (fs, checkEvents pre ++ [.checkedExists p],
         .error (.fileNotFoundError ("Input file not found: " ++ p)))
    ∧ ∀ e ∈ checkEvents pre ++ [Event.checkedExists p], e.isStat = true := by
  have hc := checkInputPaths_missing fs pre p rest hpre hp
  constructor
  · rw [merge_pdfs_strs_ne fs (pre ++ p :: rest) out (by simp)]
    simp [mergeChecked, hc]
  · intro e he
    rcases List.mem_append.mp he with h1 | h1
    · exact mem_checkEvents_isStat h1
    · rw [List.mem_singleton.mp h1]; rfl

/-- C7 witness: the absent `gone.pdf` after the readable `a.pdf` fails
the merge before anything is opened. -/
theorem missing_input_path_fails_before_parsing_witness :
    (merge_pdfs (.list ((["a.pdf"] ++ "gone.pdf" :: []).map PyValue.str)) "out.pdf" fsMissW
      = (fsMissW, checkEvents ["a.pdf"] ++ [.checkedExists "gone.pdf"],
         .error (.fileNotFoundError ("Input file not found: " ++ "gone.pdf"))))
    ∧ ∀ e ∈ checkEvents ["a.pdf"] ++ [Event.checkedExists "gone.pdf"], e.isStat = true :=
  missing_input_path_fails_before_parsing fsMissW ["a.pdf"] "gone.pdf" [] "out.pdf"
    (by intro q hq; simp only [List.mem_singleton] at hq; subst hq; exact ⟨.pdf [[1]], rfl⟩)
    rfl

end PdfMerger

namespace PdfMerger

/-- C8: an input file with zero readable pages is skipped with the
observational warning of line 56 (`warnedEmptyInput` in the trace)
rather than an error; the merge is not aborted, and the pages of all
other inputs still appear in the output in order (the output is the
concatenation of the pages before the skipped input and the pages after
it). -/
theorem zero_page_input_skipped_with_warning (fs : Fs) (pre : List Path) (p : Path)
    (rest : List Path) (out : Path)
    (hpre : ∀ q ∈ pre, fs.validPdf q) (hrest : ∀ q ∈ rest, fs.validPdf q)
    (hp : fs.nodes p = some (.file (.pdf [])))
    (hw : fs.writeLimit out = Option.none) (hd : dirname out = "") :
    merge_pdfs (.list ((pre ++ p :: rest).map PyValue.str)) out fs
      = (fs.setNode out (.file (.pdf ((pre ++ p :: rest).flatMap fs.pagesOf))),
         successTrace fs (pre ++ p :: rest) out,
         .ok ((pre ++ p :: rest).flatMap fs.pagesOf))
    ∧ (pre ++ p :: rest).flatMap fs.pagesOf
        = pre.flatMap fs.pagesOf ++ rest.flatMap fs.pagesOf
    ∧ Event.warnedEmptyInput p ∈ successTrace fs (pre ++ p :: rest) out := by
  have hv : ∀ q ∈ pre ++ p :: rest, fs.validPdf q := by
    intro q hq
    rcases List.mem_append.mp hq with h1 | h1
    · exact hpre q h1
    · rcases List.mem_cons.mp h1 with h2 | h2
      · exact h2 ▸ ⟨[], hp⟩
      · exact hrest q h2
  refine ⟨?_, ?_, ?_⟩
  · rw [merge_pdfs_strs_ne fs (pre ++ p :: rest) out (by simp),
      mergeChecked_success fs (pre ++ p :: rest) out hv hw hd]
  · simp [List.flatMap_append, List.flatMap_cons, pagesOf_eq hp]
  · have hm := warned_mem_readEvents fs pre p rest (pagesOf_eq hp)
    simp only [successTrace, List.mem_append]
    exact Or.inl (Or.inl (Or.inr hm))

/-- C8 witness: the zero-page `zero.pdf` between two readable inputs is
skipped with its warning and the other three pages are written in order. -/
theorem zero_page_input_skipped_with_warning_witness :
    (merge_pdfs (.list ((["a.pdf"] ++ "zero.pdf" :: ["c.pdf"]).map PyValue.str)) "out.pdf" fsSkipW
      = (fsSkipW.setNode "out.pdf"
           (.file (.pdf ((["a.pdf"] ++ "zero.pdf" :: ["c.pdf"]).flatMap fsSkipW.pagesOf))),
         successTrace fsSkipW (["a.pdf"] ++ "zero.pdf" :: ["c.pdf"]) "out.pdf",
         .ok ((["a.pdf"] ++ "zero.pdf" :: ["c.pdf"]).flatMap fsSkipW.pagesOf)))
    ∧ (["a.pdf"] ++ "zero.pdf" :: ["c.pdf"]).flatMap fsSkipW.pagesOf
        = ["a.pdf"].flatMap fsSkipW.pagesOf ++ ["c.pdf"].flatMap fsSkipW.pagesOf
    ∧ Event.warnedEmptyInput "zero.pdf"
        ∈ successTrace fsSkipW (["a.pdf"] ++ "zero.pdf" :: ["c.pdf"]) "out.pdf" :=
  zero_page_input_skipped_with_warning fsSkipW ["a.pdf"] "zero.pdf" ["c.pdf"] "out.pdf"
    (by intro q hq; simp only [List.mem_singleton] at hq; subst hq; exact ⟨[[1]], rfl⟩)
    (by intro q hq; simp only [List.mem_singleton] at hq; subst hq; exact ⟨[[5], [6]], rfl⟩)
    rfl rfl rfl

/-- C9: for every argument that is not a list, or is a list containing a
non-string element, `merge_pdfs` raises ValueError before performing any
filesystem access: the event trace is empty (no path statted or opened)
and the filesystem is returned unchanged (no output created). -/
theorem non_list_or_non_string_inputs_value_error (v : PyValue) (out : Path) (fs : Fs)
    (h : v.isList = false ∨ ∃ x ∈ v.elems, x.isStr = false) :
    ∃ msg, merge_pdfs v out fs = (fs, [], .error (.valueError msg)) := by
  cases v with
  | str s => exact ⟨_, rfl⟩
  | int n => exact ⟨_, rfl⟩
  | bool b => exact ⟨_, rfl⟩
  | none => exact ⟨_, rfl⟩
  | list xs =>
      rcases h with h | ⟨x, hx, hxs⟩
      · simp [PyValue.isList] at h
      · cases xs with
        | nil => simp [PyValue.elems] at hx
        | cons y ys =>
            refine ⟨"All elements in input_paths must be strings (file paths).", ?_⟩
            have hall : ((y :: ys).all PyValue.isStr) = false := by
              rw [List.all_eq_false]
              exact ⟨x, by simpa [PyValue.elems] using hx, by simp [hxs]⟩
            simp [merge_pdfs, hall]

/-- C9 witness: a list holding a string and an integer is rejected with
ValueError, an empty trace and an unchanged filesystem. -/
theorem non_list_or_non_string_inputs_value_error_witness :
    ∃ msg, merge_pdfs (.list [.str "a.pdf", .int 3]) "out.pdf" fsArgW
      = (fsArgW, [], .error (.valueError msg)) :=
  non_list_or_non_string_inputs_value_error (.list [.str "a.pdf", .int 3]) "out.pdf" fsArgW
    (Or.inr ⟨.int 3, by simp [PyValue.elems], rfl⟩)

/-- C10: when all inputs read successfully and `out` has a non-empty
parent directory that does not exist, `merge_pdfs` creates that
directory (a filesystem side effect beyond the output file, with
`createdDir` preceding `openedForWrite` in the trace) before writing the
output, and raises IOError with the filesystem unchanged if the
directory creation fails. -/
theorem creates_missing_output_directory (fs : Fs) (q : Path) (qs : List Path) (out : Path)
    (hv : ∀ p ∈ q :: qs, fs.validPdf p)
    (hd : dirname out ≠ "") (hnd : fs.nodes (dirname out) = Option.none)
    (hw : fs.writeLimit out = Option.none) :
    (fs.makedirsOk (dirname out) = true →
      merge_pdfs (.list ((q :: qs).map PyValue.str)) out fs
        = ((fs.setNode (dirname out) .dir).setNode out
             (.file (.pdf ((q :: qs).flatMap fs.pagesOf))),
           checkEvents (q :: qs) ++ readEvents fs (q :: qs)
             ++ (if (q :: qs).flatMap fs.pagesOf = [] then [Event.warnedEmptyOutput] else [])
             ++ [Event.createdDir (dirname out)] ++ [Event.openedForWrite out],
           .ok ((q :: qs).flatMap fs.pagesOf)))
    ∧ (fs.makedirsOk (dirname out) = false →
      merge_pdfs (.list ((q :: qs).map PyValue.str)) out fs
        = (fs, checkEvents (q :: qs) ++ readEvents fs (q :: qs)
             ++ (if (q :: qs).flatMap fs.pagesOf = [] then [Event.warnedEmptyOutput] else []),
           .error (.ioError ("Error creating output directory " ++ dirname out)))) := by
  have hc := checkInputPaths_ok fs (q :: qs) (fun p hp => validPdf_file (hv p hp))
  have ha := addInputPages_ok fs (q :: qs) hv []
  constructor
  · intro hmk
    rw [merge_pdfs_strs fs q qs out]
    simp only [mergeChecked, hc, ha, List.nil_append]
    rw [if_pos ⟨hd, hnd⟩, if_pos hmk,
      writeOutput_ok (fs.setNode (dirname out) .dir) out _ hw]
  · intro hmk
    rw [merge_pdfs_strs fs q qs out]
    simp only [mergeChecked, hc, ha, List.nil_append]
    rw [if_pos ⟨hd, hnd⟩, if_neg (by simp [hmk])]

/-- C10 witness: with the output at `newdir/out.pdf` and `newdir`
absent, the merge creates `newdir` and then writes when `os.makedirs`
succeeds, and raises IOError leaving the filesystem unchanged when it
fails. -/
theorem creates_missing_output_directory_witness :
    (merge_pdfs (.list (["a.pdf"].map PyValue.str)) "newdir/out.pdf" fsMkW
      = ((fsMkW.setNode (dirname "newdir/out.pdf") .dir).setNode "newdir/out.pdf"
           (.file (.pdf (["a.pdf"].flatMap fsMkW.pagesOf))),
         checkEvents ["a.pdf"] ++ readEvents fsMkW ["a.pdf"]
           ++ (if ["a.pdf"].flatMap fsMkW.pagesOf = [] then [Event.warnedEmptyOutput] else [])
           ++ [Event.createdDir (dirname "newdir/out.pdf")]
           ++ [Event.openedForWrite "newdir/out.pdf"],
         .ok (["a.pdf"].flatMap fsMkW.pagesOf)))
    ∧ (merge_pdfs (.list (["a.pdf"].map PyValue.str)) "newdir/out.pdf" fsNoMkW
      = (fsNoMkW, checkEvents ["a.pdf"] ++ readEvents fsNoMkW ["a.pdf"]
           ++ (if ["a.pdf"].flatMap fsNoMkW.pagesOf = [] then [Event.warnedEmptyOutput] else []),
         .error (.ioError ("Error creating output directory " ++ dirname "newdir/out.pdf")))) :=
  ⟨(creates_missing_output_directory fsMkW "a.pdf" [] "newdir/out.pdf"
      (by intro p hp; simp only [List.mem_singleton] at hp; subst hp; exact ⟨[[1]], rfl⟩)
      (by decide) rfl rfl).1 rfl,
   (creates_missing_output_directory fsNoMkW "a.pdf" [] "newdir/out.pdf"
      (by intro p hp; simp only [List.mem_singleton] at hp; subst hp; exact ⟨[[1]], rfl⟩)
      (by decide) rfl rfl).2 rfl⟩

end PdfMerger
